import Mathlib

/-!
Shallow embedding of the agent execution engine of the Lovable repository
(`src/graph/graph_final.ts`, `src/lib/filterMessages.ts`, `src/lib/toolClass.ts`,
`src/inngest/functions.ts`) and proofs about the spec's claims.

Conventions:
* JS strings are Lean `String`s; JS regular-expression operations are
  translated into explicit character-list scans.
* JS `Map`s and plain objects used as dictionaries become association lists
  over `String` keys, with an overwrite-on-set update.
* External collaborators (the sandbox, `JSON.parse`) are parameters:
  a `Bool` success flag for sandbox calls, a `String → Option Json` parser.
* `console.log` calls are dropped; everything else follows the source
  control flow branch by branch.
-/

namespace Lovable

/-! ## Character classes and basic string scans -/

/-- JS `\s` (the whitespace class used by `trim`, `\s+` and friends),
restricted to the ASCII whitespace characters. -/
def isWsChar (c : Char) : Bool :=
  c = ' ' || c = '\t' || c = '\n' || c = '\r' || c = '\x0b' || c = '\x0c'

/-- JS `\d`. -/
def isDigitChar (c : Char) : Bool :=
  '0' ≤ c && c ≤ '9'

/-- JS `\w` = `[A-Za-z0-9_]`. -/
def isWordChar (c : Char) : Bool :=
  ('a' ≤ c && c ≤ 'z') || ('A' ≤ c && c ≤ 'Z') || isDigitChar c || c = '_'

/-- JS `[\w-]`, the character class of an npm package name capture. -/
def isWordDashChar (c : Char) : Bool :=
  isWordChar c || c = '-'

theorem dropWhile_length_le (p : α → Bool) (l : List α) :
    (l.dropWhile p).length ≤ l.length := by
  induction l with
  | nil => simp
  | cons a t ih =>
    by_cases h : p a
    · simp only [List.dropWhile_cons, h, if_pos, List.length_cons]
      omega
    · simp [List.dropWhile_cons, h]

/-- Substring test on character lists: does `hay` contain `needle`?
Models JS `String.prototype.includes`. -/
def listContainsSub (needle : List Char) : List Char → Bool
  | [] => needle.isEmpty
  | c :: t => needle.isPrefixOf (c :: t) || listContainsSub needle t

/-- JS `hay.includes(needle)`. -/
def strContains (hay needle : String) : Bool :=
  listContainsSub needle.data hay.data

/-- JS `String.prototype.toLowerCase` (ASCII). -/
def toLowerStr (s : String) : String :=
  ⟨s.data.map Char.toLower⟩

/-- JS `String.prototype.trim`. -/
def trimWs (s : String) : String :=
  ⟨((s.data.dropWhile isWsChar).reverse.dropWhile isWsChar).reverse⟩

/-- JS `s.replace(/\s+/g, " ")`: collapse every whitespace run to one
space.  The `fuel` parameter (initialised to the input length, always at
least the length of the list being scanned, so never exhausted) makes the
recursion structural so that terms reduce in the kernel. -/
def collapseWsGo : Nat → List Char → List Char
  | 0, _ => []
  | _, [] => []
  | fuel + 1, c :: t =>
    if isWsChar c then
      ' ' :: collapseWsGo fuel (t.dropWhile isWsChar)
    else
      c :: collapseWsGo fuel t

def collapseWsList (l : List Char) : List Char :=
  collapseWsGo l.length l

def collapseWs (s : String) : String :=
  ⟨collapseWsList s.data⟩

/-- `content.replace(/\s+/g, " ").trim()`, the whitespace-insensitive
normalization used by the file-similarity check. -/
def normWs (s : String) : String :=
  trimWs (collapseWs s)

/-- JS `s.replace(pat, repl)` with a /g literal-string pattern:
leftmost-first, the replacement text is not rescanned (fuel as above). -/
def replaceAllGo (pat repl : List Char) : Nat → List Char → List Char
  | 0, _ => []
  | _, [] => []
  | fuel + 1, c :: t =>
    if pat.isPrefixOf (c :: t) && !pat.isEmpty then
      repl ++ replaceAllGo pat repl fuel (t.drop (pat.length - 1))
    else
      c :: replaceAllGo pat repl fuel t

def replaceAllList (pat repl l : List Char) : List Char :=
  replaceAllGo pat repl l.length l

def replaceAllStr (s pat repl : String) : String :=
  ⟨replaceAllList pat.data repl.data s.data⟩

/-- `s.replace(/\d{4,}/g, "TIMESTAMP")`: every maximal digit run of
length ≥ 4 becomes `TIMESTAMP` (fuel as above). -/
def timestampGo : Nat → List Char → List Char
  | 0, _ => []
  | _, [] => []
  | fuel + 1, c :: t =>
    if isDigitChar c then
      let run := (c :: t).takeWhile isDigitChar
      let rest := (c :: t).dropWhile isDigitChar
      (if 4 ≤ run.length then "TIMESTAMP".data else run) ++ timestampGo fuel rest
    else
      c :: timestampGo fuel t

def timestampReplaceList (l : List Char) : List Char :=
  timestampGo l.length l

/-- `\b` test for the position right after a duration match: the next
character (if any) must not be a word character. -/
def boundaryOk (r : List Char) : Bool :=
  r.isEmpty || !isWordChar (r.headD ' ')

/-- The optional `s?` of the duration pattern. -/
def dropOptS : List Char → List Char
  | 's' :: r => r
  | r => r

theorem dropOptS_length_le (r : List Char) : (dropOptS r).length ≤ r.length := by
  unfold dropOptS
  split <;> simp

/-- Attempt to match the tail `\d*\.\d+s?\b` of the duration pattern
(the leading digit was already consumed); returns the remainder. -/
def matchDurationTail (t : List Char) : Option (List Char) :=
  match t.dropWhile isDigitChar with
  | '.' :: r1 =>
    if (r1.takeWhile isDigitChar).isEmpty then none
    else if boundaryOk (dropOptS (r1.dropWhile isDigitChar)) then
      some (dropOptS (r1.dropWhile isDigitChar))
    else none
  | _ => none

theorem matchDurationTail_length {t rest : List Char}
    (h : matchDurationTail t = some rest) : rest.length ≤ t.length := by
  unfold matchDurationTail at h
  have h1 := dropWhile_length_le isDigitChar t
  split at h
  case _ r1 heq =>
    rw [heq] at h1
    split at h
    · exact absurd h (by simp)
    · split at h
      · cases h
        have h2 := dropOptS_length_le (r1.dropWhile isDigitChar)
        have h3 := dropWhile_length_le isDigitChar r1
        simp only [List.length_cons] at h1
        omega
      · exact absurd h (by simp)
  case _ => exact absurd h (by simp)

/-- `s.replace(/\b\d+\.\d+s?\b/g, "DURATION")`.  `prevIsWord` tracks
whether the character before the scan position is a word character (for
the leading `\b`); fuel as above. -/
def durationGo : Nat → Bool → List Char → List Char
  | 0, _, _ => []
  | _, _, [] => []
  | fuel + 1, prevIsWord, c :: t =>
    if !prevIsWord && isDigitChar c then
      match matchDurationTail t with
      | some rest => "DURATION".data ++ durationGo fuel true rest
      | none => c :: durationGo fuel true t
    else
      c :: durationGo fuel (isWordChar c) t

def durationReplaceList (prevIsWord : Bool) (l : List Char) : List Char :=
  durationGo l.length prevIsWord l

/-! ## `hashContent` (filterMessages.ts lines 27-35) -/

/-- Normalized content hash: lower-case, trim, collapse whitespace, strip
the status emojis, normalize long digit runs and durations. -/
def hashContent (s : String) : String :=
  let s1 := collapseWs (trimWs (toLowerStr s))
  let s2 := replaceAllStr s1 "✅" ""
  let s3 := replaceAllStr s2 "❌" ""
  let s4 := replaceAllStr s3 "🔧" ""
  let s5 := replaceAllStr s4 "📖" ""
  let s6 := replaceAllStr s5 "⚠️" ""
  let s7 : String := ⟨timestampReplaceList s6.data⟩
  ⟨durationReplaceList false s7.data⟩

/-! ## Message data model (LangChain message classes) -/

/-- One requested tool call attached to an assistant message.
`argsJson` stands for `JSON.stringify(tc.args)`. -/
structure ToolCall where
  name : String
  argsJson : String
deriving DecidableEq, Repr

/-- A conversation message: `SystemMessage`, `HumanMessage`, `AIMessage`
(with its requested tool calls) or `ToolMessage` (with tool name and
`tool_call_id`). -/
inductive Msg where
  | system (content : String)
  | human (content : String)
  | ai (content : String) (toolCalls : List ToolCall)
  | tool (content : String) (name : String) (toolCallId : String)
deriving DecidableEq, Repr

def Msg.content : Msg → String
  | .system c => c
  | .human c => c
  | .ai c _ => c
  | .tool c _ _ => c

def Msg.isSystem : Msg → Bool
  | .system _ => true
  | _ => false

def Msg.isHuman : Msg → Bool
  | .human _ => true
  | _ => false

def Msg.isAi : Msg → Bool
  | .ai _ _ => true
  | _ => false

def Msg.isTool : Msg → Bool
  | .tool _ _ _ => true
  | _ => false

/-- `message.constructor.name`, used in dedup keys. -/
def Msg.typeName : Msg → String
  | .system _ => "SystemMessage"
  | .human _ => "HumanMessage"
  | .ai _ _ => "AIMessage"
  | .tool _ _ _ => "ToolMessage"

def Msg.toolCallList : Msg → List ToolCall
  | .ai _ tcs => tcs
  | _ => []

def Msg.toolName : Msg → String
  | .tool _ n _ => n
  | _ => ""

/-- The canonical system-prompt signature tested by the collapse passes. -/
def canonicalSig : String := "You are a senior software engineer"

def Msg.isCanonicalSystem (m : Msg) : Bool :=
  m.isSystem && strContains m.content canonicalSig

/-! ## File-path extraction (filterMessages.ts lines 43-64) -/

def isQuoteChar (c : Char) : Bool :=
  c = Char.ofNat 39 || c = '"' || c = Char.ofNat 96

/-- The extension alternation `(tsx?|jsx?|json|css|md)`, in the order the
regex engine tries the branches. -/
def extVariants : List String := ["tsx", "ts", "jsx", "js", "json", "css", "md"]

/-- Does the span between two quotes end with `.` + extension, with at
least one character before the dot? -/
def endsWithExt (span : List Char) : Bool :=
  extVariants.any (fun e => ("." ++ e).data.isSuffixOf span && e.length + 2 ≤ span.length)

/-- All matches of `/(['"`])([^'"`]+\.(tsx?|jsx?|json|css|md))(['"`])/g`,
with the quotes stripped and the body trimmed, in match order. -/
def quotedPathsGo : Nat → List Char → List String
  | 0, _ => []
  | _, [] => []
  | fuel + 1, c :: t =>
    if isQuoteChar c then
      let span := t.takeWhile (fun d => !isQuoteChar d)
      match t.dropWhile (fun d => !isQuoteChar d) with
      | [] => []
      | q2 :: rest2 =>
        if endsWithExt span then
          trimWs ⟨span⟩ :: quotedPathsGo fuel rest2
        else
          quotedPathsGo fuel (q2 :: rest2)
    else quotedPathsGo fuel t

def quotedPathsList (l : List Char) : List String :=
  quotedPathsGo l.length l

/-- `[^\s,]`, the run class of the unquoted path patterns. -/
def notWsComma (c : Char) : Bool :=
  !isWsChar c && c ≠ ','

/-- Is there a `.` at index `k` of `run` followed by one of the extension
alternatives? -/
def dotExtAt (run : List Char) (k : Nat) : Option String :=
  if (run.drop k).headD ' ' = '.' && k < run.length then
    extVariants.find? (fun e => e.data.isPrefixOf (run.drop (k + 1)))
  else none

/-- Largest split point `k ≥ 1` (greedy `[^\s,]+`) such that a `.` +
extension follows. -/
def bestDotSplitAux (run : List Char) : Nat → Option (Nat × String)
  | 0 => none
  | k + 1 =>
    match dotExtAt run (k + 1) with
    | some e => some (k + 1, e)
    | none => bestDotSplitAux run k

def bestDotSplit (run : List Char) : Option (Nat × String) :=
  bestDotSplitAux run (run.length - 1)

/-- One left-to-right scan of
`/(?:p1|p2|…)\/[^\s,]+\.(tsx?|jsx?|json|css|md)/g` for a family of
mutually non-overlapping literal prefixes. -/
def scanPathsGo (prefixes : List (List Char)) : Nat → List Char → List String
  | 0, _ => []
  | _, [] => []
  | fuel + 1, c :: t =>
    match prefixes.find? (fun p => p.isPrefixOf (c :: t)) with
    | some p =>
      let after := (c :: t).drop p.length
      let run := after.takeWhile notWsComma
      match bestDotSplit run with
      | some (k, e) =>
        (⟨p⟩ ++ ⟨run.take k⟩ ++ "." ++ e) ::
          scanPathsGo prefixes fuel (after.drop (k + 1 + e.length))
      | none => scanPathsGo prefixes fuel t
    | none => scanPathsGo prefixes fuel t

def scanPathsMulti (prefixes : List (List Char)) (l : List Char) : List String :=
  scanPathsGo prefixes l.length l

/-- The `filePaths` extraction of `analyzeToolMessage`: quote-delimited
paths, then the `app/|lib/|components/` pattern, then the
`/home/user/` pattern, deduplicated (`new Set`). -/
def extractFilePaths (content : String) : List String :=
  (quotedPathsList content.data
    ++ scanPathsMulti ["app/".data, "lib/".data, "components/".data] content.data
    ++ scanPathsMulti ["/home/user/".data] content.data).eraseDups

/-! ## `analyzeToolMessage` (filterMessages.ts lines 38-81) -/

structure ToolAnalysis where
  toolName : String
  contentHash : String
  isSuccess : Bool
  isError : Bool
  isCompletion : Bool
  filePaths : List String
deriving DecidableEq, Repr

/-- Classification of a tool-result message. -/
def analyzeToolMessage (name content : String) : ToolAnalysis where
  toolName := if name = "" then "unknown" else name
  contentHash := hashContent content
  isSuccess := strContains content "✅" || strContains content "Successfully"
  isError :=
    strContains content "❌" || strContains content "Error" ||
    strContains content "Failed"
  isCompletion :=
    strContains content "Task completed" ||
    strContains content "already exist with identical content" ||
    strContains content "essentially complete" ||
    strContains content "TASK COMPLETION DETECTED"
  filePaths := extractFilePaths content

/-- Analysis of a `Msg` (only meaningful for tool messages, mirroring the
`message instanceof ToolMessage` guards at each call site). -/
def Msg.analyze (m : Msg) : ToolAnalysis :=
  analyzeToolMessage m.toolName m.content

/-! ## Written-files ledger (`network.data.writtenFiles`) -/

structure FileEntry where
  path : String
  content : String
deriving DecidableEq, Repr

/-- `writtenFiles` as an association list (JS object used as a map). -/
abbrev WrittenFiles := List (String × String)

def lookupWf (wf : WrittenFiles) (p : String) : Option String :=
  (wf.find? (fun kv => kv.1 = p)).map (fun kv => kv.2)

/-- Object-spread update: existing keys are overwritten in place, new
keys are appended. -/
def setWf (wf : WrittenFiles) (k v : String) : WrittenFiles :=
  if wf.any (fun kv => kv.1 = k) then
    wf.map (fun kv => if kv.1 = k then (k, v) else kv)
  else
    wf ++ [(k, v)]

/-- `{ ...writtenFiles, ...Object.fromEntries(toWrite.map(f => [f.path, f.content])) }`. -/
def updateAllWf (wf : WrittenFiles) (fs : List FileEntry) : WrittenFiles :=
  fs.foldl (fun w f => setWf w f.path f.content) wf

/-! ## Tool `createOrUpdateFiles` (graph_final.ts lines 563-643) -/

/-- `existingContent === file.content` (false when the path is absent). -/
def isIdenticalFile (wf : WrittenFiles) (f : FileEntry) : Bool :=
  lookupWf wf f.path == some f.content

/-- `existingContent && normalized equality`; an empty recorded content is
falsy, so it never counts as similar. -/
def isSimilarFile (wf : WrittenFiles) (f : FileEntry) : Bool :=
  match lookupWf wf f.path with
  | none => false
  | some ex => ex ≠ "" && normWs f.content == normWs ex

def msgAllIdentical : String :=
  "⚠️ All requested files already exist with identical content. Task is complete."

def msgSimilar : String :=
  "✅ Files exist with similar content. Task is essentially complete."

def msgNoNew : String :=
  "⚠️ No new changes detected. Task appears to be complete."

def joinPaths (fs : List FileEntry) : String :=
  String.intercalate ", " (fs.map (fun f => f.path))

def msgWriteSuccess (fs : List FileEntry) : String :=
  "✅ Successfully wrote " ++ toString fs.length ++ " file(s): " ++
    joinPaths fs ++ ". Task completed."

/-- Stands for `❌ Failed to write files: ${error.message}` (the message
text of the sandbox error is irrelevant to the claims). -/
def msgWriteFail : String := "❌ Failed to write files: sandbox error"

/-- Result of one handler run.  `objectResult` records whether the JS
handler returned the `{ result, network }` object (the successful-write
branch) rather than a plain string; `wrote` is the list of sandbox file
writes attempted; `written` is the `writtenFiles` mapping the handler
reports back. -/
structure WriteResult where
  output : String
  objectResult : Bool
  wrote : List FileEntry
  written : WrittenFiles
deriving DecidableEq, Repr

/-- The `createOrUpdateFiles` handler.  `writeOk` models whether the
sandbox `files.write` batch succeeds (the `catch` branch fires on
`false`). -/
def createOrUpdateFiles (writeOk : Bool) (files : List FileEntry)
    (writtenFiles : WrittenFiles) : WriteResult :=
  let identicalFiles := files.filter (fun f => isIdenticalFile writtenFiles f)
  let similarFiles := files.filter
    (fun f => isSimilarFile writtenFiles f && !isIdenticalFile writtenFiles f)
  let newFiles := files.filter
    (fun f => !isIdenticalFile writtenFiles f && !isSimilarFile writtenFiles f)
  if identicalFiles.length = files.length then
    ⟨msgAllIdentical, false, [], writtenFiles⟩
  else if 0 < similarFiles.length ∧ newFiles.length = 0 then
    ⟨msgSimilar, false, [], writtenFiles⟩
  else if newFiles.length = 0 then
    ⟨msgNoNew, false, [], writtenFiles⟩
  else if writeOk then
    ⟨msgWriteSuccess newFiles, true, newFiles, updateAllWf writtenFiles newFiles⟩
  else
    ⟨msgWriteFail, false, newFiles, writtenFiles⟩

/-! ## Tool `runInTerminal` (graph_final.ts lines 522-554) -/

/-- `command.match(/^npm install\s+(@?[\w-]+)/)`: the captured package
name, or `none` when the command is not an npm install. -/
def matchNpmInstall (command : String) : Option String :=
  let cd := command.data
  if ("npm install".data).isPrefixOf cd then
    let rest := cd.drop "npm install".length
    if (rest.takeWhile isWsChar).isEmpty then none
    else
      let afterWs := rest.dropWhile isWsChar
      let atPart : List Char := if afterWs.headD ' ' = '@' then ['@'] else []
      let body := if afterWs.headD ' ' = '@' then afterWs.tail else afterWs
      let nameRun := body.takeWhile isWordDashChar
      if nameRun.isEmpty then none else some ⟨atPart ++ nameRun⟩
  else none

structure TerminalResult where
  output : String
  readPackageJson : Bool
deriving DecidableEq, Repr

def msgInstallVerified (pkg : String) : String :=
  "✅ Installed " ++ pkg ++ ". Verified in package.json."

def msgInstallMissing (pkg : String) : String :=
  "❌ Installed " ++ pkg ++ ", but it's missing from package.json."

/-- The `runInTerminal` handler.  `cmdOk` models whether the sandbox
command run succeeds; `packageJson` is what `sandbox.files.read("package.json")`
returns on the verification path. -/
def runInTerminal (command : String) (cmdOk : Bool) (packageJson : String) :
    TerminalResult :=
  if cmdOk then
    match matchNpmInstall command with
    | some pkg =>
      if strContains packageJson ("\"" ++ pkg ++ "\"") then
        ⟨msgInstallVerified pkg, true⟩
      else
        ⟨msgInstallMissing pkg, true⟩
    | none => ⟨"✅ Command \"" ++ command ++ "\" executed successfully.", false⟩
  else
    ⟨"❌ Command failed: sandbox error", false⟩

/-! ## Tool-class `_call` wrapper (toolClass.ts lines 42-114) -/

/-- The completion-signal test of `_call` (applied to string outputs only). -/
def isCompletionSignalStr (output : String) : Bool :=
  strContains output "✅ Successfully wrote" ||
  strContains output "already exist with identical content" ||
  strContains output "Task completed" ||
  strContains output "Task appears to be complete" ||
  strContains output "No changes needed" ||
  strContains output "essentially complete"

def completionMarker : String :=
  "\n\n🏁 TASK COMPLETION DETECTED: This indicates the task is finished. Please provide your final <task_summary> now."

/-- What `tool.invoke` hands back to the tool node, together with the
session-state effects of `_call` (`Object.assign(state, rest)` for object
results). -/
structure ToolInvokeResult where
  content : String
  written : WrittenFiles
  wrote : List FileEntry
deriving DecidableEq, Repr

def invokeCreateOrUpdateFiles (writeOk : Bool) (files : List FileEntry)
    (writtenFiles : WrittenFiles) : ToolInvokeResult :=
  let r := createOrUpdateFiles writeOk files writtenFiles
  if r.objectResult then
    ⟨r.output, r.written, r.wrote⟩
  else if isCompletionSignalStr r.output then
    ⟨r.output ++ completionMarker, r.written, r.wrote⟩
  else
    ⟨r.output, r.written, r.wrote⟩

/-! ## Tool node processing of one `createOrUpdateFiles` call
(graph_final.ts lines 717-898; the argument-fix preamble is the identity
on well-formed arguments and is modelled with the dispatcher in the
`toolClass` section) -/

def callToolsIsTaskComplete (out : String) : Bool :=
  strContains out "✅ Successfully wrote" ||
  strContains out "already exist with identical content" ||
  strContains out "Task completed" ||
  strContains out "Task appears to be complete" ||
  strContains out "Task is complete" ||
  strContains out "essentially complete" ||
  strContains out "TASK COMPLETION DETECTED"

structure CallToolsResult where
  mainTaskExecuted : Bool
  hasWriteErrors : Bool
  toolMessageContent : String
  written : WrittenFiles
  sandboxWrites : List FileEntry
deriving DecidableEq, Repr

/-- The `callTools` node handling a single `createOrUpdateFiles` tool
call: run the tool, inspect the returned string for completion or error
signals, and update the `mainTaskExecuted` / `hasWriteErrors` flags. -/
def callToolsCreateOrUpdate (mainTaskBefore : Bool) (writeOk : Bool)
    (files : List FileEntry) (writtenFiles : WrittenFiles) : CallToolsResult :=
  let inv := invokeCreateOrUpdateFiles writeOk files writtenFiles
  let isTaskComplete := callToolsIsTaskComplete inv.content
  let mte := if isTaskComplete then true else mainTaskBefore
  let hwe := if isTaskComplete then false else strContains inv.content "❌"
  ⟨mte, hwe, inv.content, inv.written, inv.wrote⟩

/-! ## Generic association-list maps (JS `Map`) -/

def lookupAssoc {β : Type} (m : List (String × β)) (k : String) : Option β :=
  (m.find? (fun kv => kv.1 = k)).map (fun kv => kv.2)

def setAssoc {β : Type} (m : List (String × β)) (k : String) (v : β) :
    List (String × β) :=
  if m.any (fun kv => kv.1 = k) then
    m.map (fun kv => if kv.1 = k then (k, v) else kv)
  else
    m ++ [(k, v)]

/-- `list.slice(-n)`. -/
def takeLast (n : Nat) (l : List α) : List α :=
  l.drop (l.length - n)

/-! ## `filterToolMessages` (filterMessages.ts lines 103-243) -/

structure TrackEntry where
  lastSeen : Nat
  analysis : ToolAnalysis
deriving DecidableEq, Repr

structure FileOpEntry where
  lastSuccessfulWrite : Nat
  lastRead : Nat
  contentHash : String
deriving DecidableEq, Repr

/-- The per-path file-operation loop (`for (const filePath of
analysis.filePaths)`), returning the updated tracker and the
`shouldSkip` flag; `break` stops the iteration. -/
def fileOpLoop (i : Nat) (a : ToolAnalysis) :
    List String → List (String × FileOpEntry) → List (String × FileOpEntry) × Bool
  | [], ft => (ft, false)
  | p :: rest, ft =>
    let fileKey := toLowerStr p
    let fo := (lookupAssoc ft fileKey).getD ⟨0, 0, ""⟩
    if a.toolName = "createOrUpdateFiles" then
      if a.isSuccess ∧ 0 < fo.lastSuccessfulWrite ∧ i - fo.lastSuccessfulWrite < 8 then
        (ft, true)
      else
        let ft2 := if a.isSuccess then
          setAssoc ft fileKey ⟨i, fo.lastRead, a.contentHash⟩ else ft
        fileOpLoop i a rest ft2
    else if a.toolName = "readFiles" then
      if 0 < fo.lastRead ∧ i - fo.lastRead < 10 ∧ fo.contentHash = a.contentHash then
        (ft, true)
      else
        fileOpLoop i a rest (setAssoc ft fileKey ⟨fo.lastSuccessfulWrite, i, a.contentHash⟩)
    else
      fileOpLoop i a rest ft

structure FTState where
  toolTracker : List (String × TrackEntry)
  fileTracker : List (String × FileOpEntry)
  filtered : List Msg
deriving DecidableEq, Repr

/-- One iteration of the `filterToolMessages` loop at index `i`. -/
def filterToolMessagesStep (i : Nat) (m : Msg) (st : FTState) : FTState :=
  match m with
  | .tool content name _ =>
    let a := analyzeToolMessage name content
    let toolKey := a.toolName ++ ":" ++ a.contentHash
    let isRecentDup :=
      match lookupAssoc st.toolTracker toolKey with
      | some e => decide (i - e.lastSeen < 5)
      | none => false
    if isRecentDup then st
    else
      let pair := fileOpLoop i a a.filePaths st.fileTracker
      if pair.2 then { st with fileTracker := pair.1 }
      else if a.isCompletion &&
          st.toolTracker.any (fun kv =>
            kv.2.analysis.isCompletion && decide (i - kv.2.lastSeen < 5)) then
        { st with fileTracker := pair.1 }
      else if a.isError &&
          st.toolTracker.any (fun kv =>
            kv.2.analysis.isError && (kv.2.analysis.toolName == a.toolName) &&
            (kv.2.analysis.contentHash == a.contentHash) &&
            decide (i - kv.2.lastSeen < 3)) then
        { st with fileTracker := pair.1 }
      else
        ⟨setAssoc st.toolTracker toolKey ⟨i, a⟩, pair.1, st.filtered ++ [m]⟩
  | _ => { st with filtered := st.filtered ++ [m] }

def filterToolMessagesLoop (i : Nat) : List Msg → FTState → FTState
  | [], st => st
  | m :: rest, st => filterToolMessagesLoop (i + 1) rest (filterToolMessagesStep i m st)

/-- Tool-message deduplication pass. -/
def filterToolMessages (messages : List Msg) : List Msg :=
  (filterToolMessagesLoop 0 messages ⟨[], [], []⟩).filtered

/-! ## `filterRepetitiveMessagesAdvanced` (filterMessages.ts lines 248-411) -/

structure AdvOptions where
  maxDuplicates : Nat := 2
  recentWindowSize : Nat := 8
  aggressiveMode : Bool := true
  preserveSystemMessages : Bool := true
  preserveToolMessages : Bool := false
  aggressiveToolFiltering : Bool := true
deriving DecidableEq, Repr

structure AdvState where
  filtered : List Msg
  contentCounts : List (String × Nat)
  lastSeenIndex : List (String × Nat)
  consecutiveCount : Nat
  lastUserMessage : String
  lastToolName : String
  consecutiveToolCount : Nat
deriving DecidableEq, Repr

def advInit : AdvState := ⟨[], [], [], 0, "", "", 0⟩

/-- The trailing occurrence-count logic (`Count occurrences` down to the
final push) shared by every branch that does not `continue`. -/
def advGeneric (opts : AdvOptions) (key : String) (i : Nat) (m : Msg)
    (st : AdvState) : AdvState :=
  let currentCount := (lookupAssoc st.contentCounts key).getD 0
  let shouldInclude :=
    if opts.maxDuplicates ≤ currentCount then
      match lookupAssoc st.lastSeenIndex key with
      | some li => !decide (i - li < opts.recentWindowSize)
      | none => true
    else true
  if shouldInclude then
    { st with filtered := st.filtered ++ [m],
              contentCounts := setAssoc st.contentCounts key (currentCount + 1),
              lastSeenIndex := setAssoc st.lastSeenIndex key i }
  else st

/-- One iteration of the `filterRepetitiveMessagesAdvanced` loop. -/
def advStep (opts : AdvOptions) (i : Nat) (m : Msg) (st : AdvState) : AdvState :=
  let key := m.typeName ++ ":" ++ hashContent m.content
  if opts.preserveSystemMessages && m.isSystem then
    if st.filtered.any (fun x => x.isSystem && strContains x.content canonicalSig) then st
    else { st with filtered := st.filtered ++ [m] }
  else if m.isTool && !opts.preserveToolMessages then
    let a := m.analyze
    let newCtc := if a.toolName = st.lastToolName then st.consecutiveToolCount + 1 else 1
    let st1 := { st with consecutiveToolCount := newCtc, lastToolName := a.toolName }
    if 3 < newCtc && !a.isCompletion then st1
    else if a.isCompletion then { st1 with filtered := st1.filtered ++ [m] }
    else if a.isSuccess && !a.filePaths.isEmpty &&
        ((takeLast 5 st1.filtered).filter (fun x => x.isTool)).any (fun x =>
          let pa := x.analyze
          (pa.toolName == a.toolName) && pa.isSuccess &&
            pa.filePaths.any (fun p => a.filePaths.contains p)) then
      st1
    else advGeneric opts key i m st1
  else if m.isHuman then
    let h := hashContent m.content
    let newCc := if h = st.lastUserMessage then st.consecutiveCount + 1 else 1
    let st1 := { st with consecutiveCount := newCc, lastUserMessage := h }
    if opts.aggressiveMode && 3 < newCc then st1
    else advGeneric opts key i m st1
  else
    advGeneric opts key i m st

def advLoop (opts : AdvOptions) (i : Nat) : List Msg → AdvState → AdvState
  | [], st => st
  | m :: rest, st => advLoop opts (i + 1) rest (advStep opts i m st)

/-- Repetitive-message filter; with `aggressiveToolFiltering` the tool
dedup pass runs first. -/
def filterRepetitiveMessagesAdvanced (messages : List Msg) (opts : AdvOptions) :
    List Msg :=
  if messages.length = 0 then messages
  else
    let workingMessages :=
      if opts.aggressiveToolFiltering then filterToolMessages messages else messages
    (advLoop opts 0 workingMessages advInit).filtered

/-! ## `cleanupSystemMessages` (filterMessages.ts lines 644-668) and
`filterSystemMessages` (graph_final.ts lines 19-42; identical body) -/

def cleanupSystemMessages (messages : List Msg) : List Msg :=
  match messages.find? (fun m => m.isSystem && strContains m.content canonicalSig) with
  | some s => s :: messages.filter (fun m => !m.isSystem)
  | none => messages.filter (fun m => !m.isSystem)

def filterSystemMessages : List Msg → List Msg := cleanupSystemMessages

/-! ## `compressMessageHistory` (filterMessages.ts lines 510-558) -/

def compressMessageHistory (messages : List Msg) (maxLength : Nat) : List Msg :=
  if messages.length ≤ maxLength then messages
  else
    let compressed : List Msg :=
      match messages.find? (fun m => m.isSystem) with
      | some s => [s]
      | none => []
    let recentMessages := (takeLast 15 messages).filter (fun m => !m.isSystem)
    let milestones := takeLast 5 (messages.filter
      (fun m => m.isTool && (m.analyze.isSuccess || m.analyze.isCompletion)))
    let recentAIWithTools := takeLast 3 (messages.filter
      (fun m => m.isAi && !m.toolCallList.isEmpty))
    let combined := compressed ++ milestones ++ recentAIWithTools ++ recentMessages
    filterRepetitiveMessagesAdvanced combined
      { aggressiveMode := true, aggressiveToolFiltering := true,
        preserveToolMessages := false }

/-! ## `detectRepetitiveLoop` / `checkMessageLoop`
(filterMessages.ts lines 416-505) -/

structure LoopCheck where
  hasLoop : Bool
  pattern : String
  count : Nat
deriving DecidableEq, Repr

/-- `checkMessageLoop`: within the window, count how often the most
recent entry occurs (not necessarily consecutively).  The `getLast?`
fallback is unreachable for `1 ≤ threshold` (the JS code would fault on
an empty list with `threshold = 0`). -/
def checkMessageLoop (messages : List String) (threshold : Nat) : LoopCheck :=
  if messages.length < threshold then ⟨false, "", 0⟩
  else
    match messages.getLast? with
    | none => ⟨false, "", 0⟩
    | some last =>
      let repetitionCount := messages.count last
      if threshold ≤ repetitionCount then ⟨true, last.take 50, repetitionCount⟩
      else ⟨false, "", 0⟩

def humanWindow (messages : List Msg) : List String :=
  (takeLast 6 (messages.filter (fun m => m.isHuman))).map (fun m => hashContent m.content)

def toolWindow (messages : List Msg) : List String :=
  (takeLast 10 (messages.filter (fun m => m.isTool))).map
    (fun m => m.analyze.toolName ++ ":" ++ m.analyze.contentHash)

def aiToolCallSig (m : Msg) : String :=
  String.intercalate "|" (m.toolCallList.map (fun tc => tc.name ++ ":" ++ tc.argsJson))

def aiWindow (messages : List Msg) : List String :=
  ((takeLast 8 (messages.filter (fun m => m.isAi))).map aiToolCallSig).filter
    (fun s => !s.isEmpty)

def hasActualProgress (messages : List Msg) : Bool :=
  messages.any (fun m => m.isTool &&
    (strContains m.content "✅ Successfully wrote" ||
     strContains m.content "Command executed successfully" ||
     strContains m.content "Task completed"))

structure LoopInfo where
  hasLoop : Bool
  pattern : String
  count : Nat
  shouldTerminate : Bool
  toolLoop : Bool
deriving DecidableEq, Repr

/-- Loop detector over the three message-class windows. -/
def detectRepetitiveLoop (messages : List Msg) (threshold : Nat) : LoopInfo :=
  let humanLoop := checkMessageLoop (humanWindow messages) threshold
  let toolLoop := checkMessageLoop (toolWindow messages) (threshold + 1)
  let aiLoop := checkMessageLoop (aiWindow messages) threshold
  let progress := hasActualProgress messages
  let shouldTerminate :=
    (humanLoop.hasLoop && decide (5 ≤ humanLoop.count)) ||
    (toolLoop.hasLoop && decide (6 ≤ toolLoop.count) && !progress) ||
    (aiLoop.hasLoop && decide (4 ≤ aiLoop.count))
  if humanLoop.hasLoop then ⟨true, humanLoop.pattern, humanLoop.count, shouldTerminate, false⟩
  else if toolLoop.hasLoop then ⟨true, toolLoop.pattern, toolLoop.count, shouldTerminate, true⟩
  else if aiLoop.hasLoop then ⟨true, aiLoop.pattern, aiLoop.count, shouldTerminate, false⟩
  else ⟨false, "", 0, false, false⟩

/-! ## `masterMessageFilter` (filterMessages.ts lines 563-639) -/

structure MasterOptions where
  enableCompression : Bool := true
  maxHistoryLength : Nat := 25
  autoTerminateLoops : Bool := false
  aggressiveToolFiltering : Bool := true
deriving DecidableEq, Repr

/-- `removed` counts use truncated subtraction; the filters only ever
select from their input, so no information is lost. -/
structure FilterStats where
  original : Nat
  filtered : Nat
  removed : Nat
  toolMessagesRemoved : Nat
deriving DecidableEq, Repr

structure FilterOutput where
  messages : List Msg
  loopDetected : Bool
  shouldTerminate : Bool
  stats : FilterStats
deriving DecidableEq, Repr

def masterMessageFilter (messages : List Msg) (opts : MasterOptions) : FilterOutput :=
  let originalCount := messages.length
  let originalToolCount := (messages.filter (fun m => m.isTool)).length
  let loopInfo := detectRepetitiveLoop messages 3
  let f1 := filterRepetitiveMessagesAdvanced messages
    { maxDuplicates := 2, recentWindowSize := 10, aggressiveMode := true,
      aggressiveToolFiltering := opts.aggressiveToolFiltering,
      preserveToolMessages := false }
  let f2 :=
    if opts.enableCompression && decide (opts.maxHistoryLength < f1.length) then
      compressMessageHistory f1 opts.maxHistoryLength
    else f1
  let f3 := cleanupSystemMessages f2
  let finalToolCount := (f3.filter (fun m => m.isTool)).length
  { messages := f3
    loopDetected := loopInfo.hasLoop
    shouldTerminate := opts.autoTerminateLoops && loopInfo.shouldTerminate
    stats := ⟨originalCount, f3.length, originalCount - f3.length,
              originalToolCount - finalToolCount⟩ }

/-! ## Graph state and the LLM node (graph_final.ts lines 904-1108) -/

/-- The session state the LLM node reads (`messages`,
`network.data.writtenFiles`, the two flags). -/
structure AgentState where
  messages : List Msg
  writtenFiles : WrittenFiles
  mainTaskExecuted : Bool
  hasWriteErrors : Bool
deriving DecidableEq, Repr

/-- The tool-enabled model's response, consumed by the normal branch. -/
structure AIResponse where
  content : String
  toolCalls : List ToolCall
deriving DecidableEq, Repr

/-- Which `return` of `callLlm` fires. -/
inductive LlmBranch where
  | loopForced
  | summaryForced
  | signalForced
  | normal
deriving DecidableEq, Repr

inductive NextTag where
  | tools
  | endRun
deriving DecidableEq, Repr

/-- Observable outcome of one `callLlm` run: how many plain-LLM
(`promptFinalSummary`, the completion-forcing call without bound tools)
and tool-LLM invocations happen, the `next` edge, and the
`mainTaskExecuted` flag afterwards. -/
structure LlmOutcome where
  branch : LlmBranch
  plainLlmCalls : Nat
  toolLlmCalls : Nat
  next : NextTag
  mainTaskExecutedOut : Bool
deriving DecidableEq, Repr

/-- The options `callLlm` passes to `masterMessageFilter`. -/
def callLlmFilterOpts : MasterOptions :=
  { enableCompression := true, maxHistoryLength := 25,
    autoTerminateLoops := false, aggressiveToolFiltering := true }

/-- `hasCompletedWork` of the loop branch: any message whose content
carries a write-success or `Task completed` phrase. -/
def hasCompletedWork (messages : List Msg) : Bool :=
  messages.any (fun m =>
    strContains m.content "✅ Successfully wrote" ||
    strContains m.content "Task completed")

/-- `hasCompletionSignals` of the enhanced-completion branch (tool
messages among the last five filtered messages). -/
def hasCompletionSignalsRecent (recent : List Msg) : Bool :=
  recent.any (fun m => m.isTool &&
    (strContains m.content "already exist with identical content" ||
     strContains m.content "Task completed" ||
     strContains m.content "essentially complete" ||
     strContains m.content "TASK COMPLETION DETECTED"))

/-- The `callLlm` node's branch decision and outcome. -/
def callLlmOutcome (state : AgentState) (resp : AIResponse) : LlmOutcome :=
  let fr := masterMessageFilter state.messages callLlmFilterOpts
  if fr.loopDetected && fr.shouldTerminate && hasCompletedWork state.messages then
    ⟨.loopForced, 1, 0, .endRun, true⟩
  else if state.mainTaskExecuted then
    ⟨.summaryForced, 1, 0, .endRun, state.mainTaskExecuted⟩
  else if !state.writtenFiles.isEmpty &&
      hasCompletionSignalsRecent (takeLast 5 fr.messages) then
    ⟨.signalForced, 1, 0, .endRun, true⟩
  else
    let hasSummary := strContains resp.content "<task_summary>"
    let next :=
      if hasSummary then NextTag.endRun
      else if !resp.toolCalls.isEmpty then NextTag.tools
      else NextTag.endRun
    ⟨.normal, 0, 1, next, state.mainTaskExecuted⟩

/-! ## Invocation entry merge (inngest/functions.ts lines 101-175) -/

/-- The options the inngest entry point passes to `masterMessageFilter`. -/
def inngestFilterOpts : MasterOptions :=
  { enableCompression := true, maxHistoryLength := 20,
    autoTerminateLoops := false, aggressiveToolFiltering := true }

/-- The merged state built for a resumed thread: filtered history plus the
fresh user message; `mainTaskExecuted` and `hasWriteErrors` are assigned
`false` (lines 166-173), with no inspection of `userQuery`. -/
def mergeResumedState (existing : AgentState) (userQuery : String) : AgentState :=
  { existing with
      messages :=
        (masterMessageFilter existing.messages inngestFilterOpts).messages ++
          [Msg.human userQuery],
      mainTaskExecuted := false,
      hasWriteErrors := false }

/-! ## JSON values and the tool dispatcher (toolClass.ts lines 117-244) -/

inductive Json where
  | null
  | bool (b : Bool)
  | num (n : Int)
  | str (s : String)
  | arr (items : List Json)
  | obj (fields : List (String × Json))
deriving Repr

def Json.getField (j : Json) (k : String) : Option Json :=
  match j with
  | .obj fields => lookupAssoc fields k
  | _ => none

/-- JS truthiness of a possibly-missing property value. -/
def truthy : Option Json → Bool
  | none => false
  | some .null => false
  | some (.bool b) => b
  | some (.num n) => !(n == 0)
  | some (.str s) => !s.isEmpty
  | some (.arr _) => true
  | some (.obj _) => true

/-- `fixCommonParameterIssues`; the `throw` of the malformed-JSON branch
becomes `Except.error`. -/
def fixCommonParameterIssues (parseJson : String → Option Json) (name : String)
    (args : Json) : Except String Json :=
  if name = "readFiles" then
    if truthy (args.getField "paths") && !truthy (args.getField "files") then
      .ok (.obj [("files", (args.getField "paths").getD .null)])
    else if truthy (args.getField "path") && !truthy (args.getField "files") then
      .ok (.obj [("files", .arr [(args.getField "path").getD .null])])
    else .ok args
  else if name = "createOrUpdateFiles" then
    match args.getField "files" with
    | some (.str s) =>
      match parseJson s with
      | some j => .ok (.obj [("files", j)])
      | none => .error ("files parameter is a malformed JSON string: " ++ s)
    | _ =>
      if !truthy (args.getField "files") && truthy (args.getField "path") &&
          truthy (args.getField "content") then
        .ok (.obj [("files", .arr [.obj
          [("path", (args.getField "path").getD .null),
           ("content", (args.getField "content").getD .null)]])])
      else .ok args
  else if name = "runInTerminal" then
    if truthy (args.getField "cmd") && !truthy (args.getField "command") then
      .ok (.obj [("command", (args.getField "cmd").getD .null)])
    else if truthy (args.getField "script") && !truthy (args.getField "command") then
      .ok (.obj [("command", (args.getField "script").getD .null)])
    else .ok args
  else .ok args

def isStrJson : Json → Bool
  | .str _ => true
  | _ => false

/-- Option-valued traversal (zod parsing an array element-wise). -/
def traverseOption (f : α → Option β) : List α → Option (List β)
  | [] => some []
  | a :: t =>
    match f a, traverseOption f t with
    | some b, some bs => some (b :: bs)
    | _, _ => none

/-- zod parse of one `{ path, content }` element (unknown keys stripped). -/
def asFileEntryJson : Json → Option Json
  | .obj fields =>
    match lookupAssoc fields "path", lookupAssoc fields "content" with
    | some (.str p), some (.str c) =>
      some (.obj [("path", .str p), ("content", .str c)])
    | _, _ => none
  | _ => none

/-- The zod schemas bound to the three tools
(`z.object({command: z.string()})`,
`z.object({files: z.array(z.object({path, content}))})`,
`z.object({files: z.array(z.string())})`); unknown keys are stripped,
missing or ill-typed fields raise a `ZodError` (the `.error` case carries
the issue text). -/
def zodValidate (name : String) (j : Json) : Except String Json :=
  match j with
  | .obj _ =>
    if name = "runInTerminal" then
      match j.getField "command" with
      | some (.str c) => .ok (.obj [("command", .str c)])
      | some _ => .error "command: Expected string"
      | none => .error "command: Required"
    else if name = "readFiles" then
      match j.getField "files" with
      | some (.arr items) =>
        if items.all isStrJson then .ok (.obj [("files", .arr items)])
        else .error "files: Expected array of strings"
      | some _ => .error "files: Expected array"
      | none => .error "files: Required"
    else if name = "createOrUpdateFiles" then
      match j.getField "files" with
      | some (.arr items) =>
        match traverseOption asFileEntryJson items with
        | some stripped => .ok (.obj [("files", .arr stripped)])
        | none => .error "files: Expected array of \x7b path, content \x7d objects"
      | some _ => .error "files: Expected array"
      | none => .error "files: Required"
    else .ok j
  | _ => .error "Expected object"

/-- How one `invoke` run ends; the hint text and the echoed raw
arguments of the real error strings are presentation and are omitted. -/
inductive InvokeOutcome where
  | executed (validated : Json)
  | zodFailure (issues : String)
  | toolFailure (msg : String)
deriving Repr

/-- The dispatcher `invoke`: parse string args, repair, validate, run.
Every failure is returned as a tool-result value, never thrown. -/
def invokeDispatch (parseJson : String → Option Json) (name : String)
    (args : Json) : InvokeOutcome :=
  let parsedArgs :=
    match args with
    | .str s => (parseJson s).getD args
    | _ => args
  match fixCommonParameterIssues parseJson name parsedArgs with
  | .error msg => .toolFailure ("❌ Tool " ++ name ++ " failed: " ++ msg)
  | .ok fixedArgs =>
    match zodValidate name fixedArgs with
    | .error issues =>
      .zodFailure ("❌ Tool " ++ name ++ " validation failed: " ++ issues)
    | .ok validated => .executed validated

/-! ## Spec-side comparison definitions -/

/-- Longest consecutive run of `v` within `l`. -/
def maxRunOf (v : String) (l : List String) : Nat :=
  (l.foldl (fun (p : Nat × Nat) s =>
    let cur := if s = v then p.1 + 1 else 0
    (cur, max p.2 cur)) (0, 0)).2

def windowConsecDetected (w : List String) (t : Nat) : Bool :=
  match w.getLast? with
  | some v => decide (t ≤ maxRunOf v w)
  | none => false

/-- Modelled from the spec's words (claim C5): a loop is detected exactly
when one class window's most recent value repeats at least the class
threshold times *consecutively*. -/
def specConsecutiveDetected (messages : List Msg) (threshold : Nat) : Bool :=
  windowConsecDetected (humanWindow messages) threshold ||
  windowConsecDetected (toolWindow messages) (threshold + 1) ||
  windowConsecDetected (aiWindow messages) threshold

/-- Modelled from the spec's words (claim C2, §4.3): a completion signal
is a write success, an already-identical result, or a completion phrase.
The phrase set is the union of those the controller's two completion
checks look for. -/
def specCompletionSignal (content : String) : Bool :=
  strContains content "✅ Successfully wrote" ||
  strContains content "Task completed" ||
  strContains content "already exist with identical content" ||
  strContains content "essentially complete" ||
  strContains content "TASK COMPLETION DETECTED"

/-! ## Ledger lemmas -/

theorem setWf_cons_ne (a : String × String) (t : WrittenFiles) (k v : String)
    (h : a.1 ≠ k) : setWf (a :: t) k v = a :: setWf t k v := by
  unfold setWf
  simp only [List.any_cons, h, decide_eq_true_eq, false_or, decide_False,
    Bool.false_or]
  split
  · simp [h]
  · simp

theorem lookupWf_cons_ne (a : String × String) (t : WrittenFiles) (p : String)
    (h : a.1 ≠ p) : lookupWf (a :: t) p = lookupWf t p := by
  simp [lookupWf, List.find?_cons, h]

theorem lookupWf_setWf_self (wf : WrittenFiles) (k v : String) :
    lookupWf (setWf wf k v) k = some v := by
  induction wf with
  | nil => simp [setWf, lookupWf]
  | cons a t ih =>
    by_cases h : a.1 = k
    · unfold setWf
      simp only [List.any_cons, h, decide_True, Bool.true_or, if_pos]
      simp [lookupWf, List.find?_cons, h]
    · rw [setWf_cons_ne a t k v h, lookupWf_cons_ne a _ k h]
      exact ih

theorem lookupWf_mapSet_ne (t : WrittenFiles) (k v k' : String) (h : k' ≠ k) :
    lookupWf (t.map (fun kv => if kv.1 = k then (k, v) else kv)) k' = lookupWf t k' := by
  induction t with
  | nil => rfl
  | cons b r ih =>
    by_cases hb : b.1 = k
    · simp only [List.map_cons, hb, if_pos]
      rw [lookupWf_cons_ne ⟨k, v⟩ _ k' (Ne.symm h),
        lookupWf_cons_ne b r k' (by rw [hb]; exact Ne.symm h)]
      exact ih
    · simp only [List.map_cons]
      rw [if_neg hb]
      by_cases hbk : b.1 = k'
      · simp [lookupWf, List.find?_cons, hbk]
      · rw [lookupWf_cons_ne b _ k' hbk, lookupWf_cons_ne b r k' hbk]
        exact ih

theorem lookupWf_append_single_ne (wf : WrittenFiles) (k v k' : String)
    (h : k' ≠ k) : lookupWf (wf ++ [(k, v)]) k' = lookupWf wf k' := by
  induction wf with
  | nil => simp [lookupWf, List.find?_cons, Ne.symm h]
  | cons a t ih =>
    by_cases hak : a.1 = k'
    · simp [lookupWf, List.find?_cons, hak]
    · rw [List.cons_append, lookupWf_cons_ne a _ k' hak,
        lookupWf_cons_ne a t k' hak]
      exact ih

theorem lookupWf_setWf_ne (wf : WrittenFiles) (k v k' : String) (h : k' ≠ k) :
    lookupWf (setWf wf k v) k' = lookupWf wf k' := by
  unfold setWf
  split
  · exact lookupWf_mapSet_ne wf k v k' h
  · exact lookupWf_append_single_ne wf k v k' h

theorem lookupWf_updateAllWf_not_mem (fs : List FileEntry) (wf : WrittenFiles)
    (p : String) (h : p ∉ fs.map (fun f => f.path)) :
    lookupWf (updateAllWf wf fs) p = lookupWf wf p := by
  induction fs generalizing wf with
  | nil => rfl
  | cons g t ih =>
    simp only [List.map_cons, List.mem_cons, not_or] at h
    unfold updateAllWf
    simp only [List.foldl_cons]
    rw [show (t.foldl (fun w f => setWf w f.path f.content)
        (setWf wf g.path g.content)) = updateAllWf (setWf wf g.path g.content) t from rfl]
    rw [ih (setWf wf g.path g.content) h.2]
    exact lookupWf_setWf_ne wf g.path g.content p h.1

theorem lookupWf_updateAllWf_mem (fs : List FileEntry) (wf : WrittenFiles)
    (f : FileEntry) (hnd : (fs.map (fun x => x.path)).Nodup) (hf : f ∈ fs) :
    lookupWf (updateAllWf wf fs) f.path = some f.content := by
  induction fs generalizing wf with
  | nil => exact absurd hf (List.not_mem_nil f)
  | cons g t ih =>
    simp only [List.map_cons, List.nodup_cons] at hnd
    rcases List.mem_cons.mp hf with hfg | hft
    · subst hfg
      unfold updateAllWf
      simp only [List.foldl_cons]
      rw [show (t.foldl (fun w x => setWf w x.path x.content)
          (setWf wf f.path f.content)) = updateAllWf (setWf wf f.path f.content) t from rfl]
      rw [lookupWf_updateAllWf_not_mem t (setWf wf f.path f.content) f.path hnd.1]
      exact lookupWf_setWf_self wf f.path f.content
    · unfold updateAllWf
      simp only [List.foldl_cons]
      exact ih (setWf wf g.path g.content) hnd.2 hft

/-! ## Write-tool idempotence (claim C1) -/

theorem isIdenticalFile_eq_true_iff (wf : WrittenFiles) (f : FileEntry) :
    isIdenticalFile wf f = true ↔ lookupWf wf f.path = some f.content := by
  unfold isIdenticalFile
  exact beq_iff_eq

theorem isIdenticalFile_congr (wf1 wf2 : WrittenFiles) (f : FileEntry)
    (h : lookupWf wf1 f.path = lookupWf wf2 f.path) :
    isIdenticalFile wf1 f = isIdenticalFile wf2 f := by
  unfold isIdenticalFile
  rw [h]

theorem isSimilarFile_congr (wf1 wf2 : WrittenFiles) (f : FileEntry)
    (h : lookupWf wf1 f.path = lookupWf wf2 f.path) :
    isSimilarFile wf1 f = isSimilarFile wf2 f := by
  unfold isSimilarFile
  rw [h]

theorem createOrUpdateFiles_all_identical (writeOk : Bool) (files : List FileEntry)
    (wf : WrittenFiles) (h : ∀ f ∈ files, lookupWf wf f.path = some f.content) :
    createOrUpdateFiles writeOk files wf = ⟨msgAllIdentical, false, [], wf⟩ := by
  have hfilter : files.filter (fun f => isIdenticalFile wf f) = files :=
    List.filter_eq_self.mpr (fun f hf => by simp [isIdenticalFile, h f hf])
  simp only [createOrUpdateFiles]
  rw [hfilter]
  simp

theorem createOrUpdateFiles_second_noop (files : List FileEntry) (wf : WrittenFiles)
    (hnd : (files.map (fun f => f.path)).Nodup) :
    (createOrUpdateFiles true files ((createOrUpdateFiles true files wf).written)).wrote = [] := by
  have hinj : ∀ g ∈ files, ∀ f ∈ files, g.path = f.path → g = f :=
    fun g hg f hf he => List.inj_on_of_nodup_map hnd hg hf he
  by_cases hnew : files.filter
      (fun f => !isIdenticalFile wf f && !isSimilarFile wf f) = []
  · have hw : (createOrUpdateFiles true files wf).written = wf := by
      simp only [createOrUpdateFiles, hnew, List.length_nil]
      split
      · rfl
      · split
        · rfl
        · simp
    rw [hw]
    simp only [createOrUpdateFiles, hnew, List.length_nil]
    split
    · rfl
    · split
      · rfl
      · simp
  · -- the first call takes the successful-write branch
    have hlen : (files.filter
        (fun f => !isIdenticalFile wf f && !isSimilarFile wf f)).length ≠ 0 := by
      intro hc
      exact hnew (List.length_eq_zero.mp hc)
    have hc1 : ¬ ((files.filter (fun f => isIdenticalFile wf f)).length = files.length) := by
      intro hc
      have heq : files.filter (fun f => isIdenticalFile wf f) = files :=
        (List.filter_sublist files).eq_of_length hc
      apply hnew
      apply List.filter_eq_nil.mpr
      intro f hf
      have hid : isIdenticalFile wf f = true := by
        have := List.filter_eq_self.mp heq f hf
        simpa using this
      simp [hid]
    have hr : createOrUpdateFiles true files wf =
        ⟨msgWriteSuccess (files.filter (fun f => !isIdenticalFile wf f && !isSimilarFile wf f)),
         true,
         files.filter (fun f => !isIdenticalFile wf f && !isSimilarFile wf f),
         updateAllWf wf (files.filter (fun f => !isIdenticalFile wf f && !isSimilarFile wf f))⟩ := by
      simp only [createOrUpdateFiles]
      rw [if_neg hc1, if_neg (by
          intro hc
          exact hlen hc.2), if_neg (by exact hlen)]
      simp
    rw [hr]
    -- after the successful write every requested file is identical or similar
    have hndf : ((files.filter
        (fun f => !isIdenticalFile wf f && !isSimilarFile wf f)).map
          (fun f => f.path)).Nodup :=
      hnd.sublist ((List.filter_sublist files).map (fun f => f.path))
    have hnotmem : ∀ f ∈ files,
        (!isIdenticalFile wf f && !isSimilarFile wf f) = false →
        f.path ∉ (files.filter
          (fun f => !isIdenticalFile wf f && !isSimilarFile wf f)).map
            (fun x => x.path) := by
      intro f hf hpf hc
      obtain ⟨g, hg, he⟩ := List.mem_map.mp hc
      have hgf : g ∈ files := (List.mem_filter.mp hg).1
      have hge : g = f := hinj g hgf f hf he
      subst hge
      have := (List.mem_filter.mp hg).2
      rw [hpf] at this
      exact absurd this (by simp)
    have hnew2 : files.filter
        (fun f => !isIdenticalFile
            (updateAllWf wf (files.filter
              (fun f => !isIdenticalFile wf f && !isSimilarFile wf f))) f &&
          !isSimilarFile
            (updateAllWf wf (files.filter
              (fun f => !isIdenticalFile wf f && !isSimilarFile wf f))) f) = [] := by
      apply List.filter_eq_nil.mpr
      intro f hf
      by_cases hid : isIdenticalFile wf f = true
      · have hlk : lookupWf (updateAllWf wf (files.filter
            (fun f => !isIdenticalFile wf f && !isSimilarFile wf f))) f.path =
            lookupWf wf f.path :=
          lookupWf_updateAllWf_not_mem _ wf f.path
            (hnotmem f hf (by simp [hid]))
        have hid2 : isIdenticalFile (updateAllWf wf (files.filter
            (fun f => !isIdenticalFile wf f && !isSimilarFile wf f))) f = true := by
          rw [isIdenticalFile_congr _ wf f hlk]
          exact hid
        simp [hid2]
      · by_cases hsim : isSimilarFile wf f = true
        · have hlk : lookupWf (updateAllWf wf (files.filter
              (fun f => !isIdenticalFile wf f && !isSimilarFile wf f))) f.path =
              lookupWf wf f.path :=
            lookupWf_updateAllWf_not_mem _ wf f.path
              (hnotmem f hf (by simp [hsim]))
          have hsim2 : isSimilarFile (updateAllWf wf (files.filter
              (fun f => !isIdenticalFile wf f && !isSimilarFile wf f))) f = true := by
            rw [isSimilarFile_congr _ wf f hlk]
            exact hsim
          simp [hsim2]
        · have hmem : f ∈ files.filter
              (fun f => !isIdenticalFile wf f && !isSimilarFile wf f) :=
            List.mem_filter.mpr ⟨hf, by
              simp only [Bool.not_eq_true] at hid hsim
              simp [hid, hsim]⟩
          have hlk : lookupWf (updateAllWf wf (files.filter
              (fun f => !isIdenticalFile wf f && !isSimilarFile wf f))) f.path =
              some f.content :=
            lookupWf_updateAllWf_mem _ wf f hndf hmem
          have hid2 : isIdenticalFile (updateAllWf wf (files.filter
              (fun f => !isIdenticalFile wf f && !isSimilarFile wf f))) f = true :=
            (isIdenticalFile_eq_true_iff _ f).mpr hlk
          simp [hid2]
    simp only [createOrUpdateFiles, hnew2, List.length_nil]
    split
    · rfl
    · split
      · rfl
      · simp

/-- C1 (amended): a `createOrUpdateFiles` request in which every
`{path, content}` pair is byte-identical to the recorded `writtenFiles`
entry returns the explicit "already exist with identical content" result,
performs no sandbox write and leaves `writtenFiles` unchanged; and for a
request whose paths are pairwise distinct, repeating the identical request
after a successful first call performs no further sandbox write. -/
theorem claim_C1 (writeOk : Bool) (files : List FileEntry) (wf : WrittenFiles)
    (hid : ∀ f ∈ files, lookupWf wf f.path = some f.content)
    (files2 : List FileEntry) (wf2 : WrittenFiles)
    (hnd : (files2.map (fun f => f.path)).Nodup) :
    createOrUpdateFiles writeOk files wf = ⟨msgAllIdentical, false, [], wf⟩ ∧
    (createOrUpdateFiles true files2
      ((createOrUpdateFiles true files2 wf2).written)).wrote = [] :=
  ⟨createOrUpdateFiles_all_identical writeOk files wf hid,
   createOrUpdateFiles_second_noop files2 wf2 hnd⟩

/-- Witness for C1 at concrete inputs. -/
theorem claim_C1_witness :
    createOrUpdateFiles true [⟨"a", "x"⟩] [("a", "x")] =
      ⟨msgAllIdentical, false, [], [("a", "x")]⟩ ∧
    (createOrUpdateFiles true [⟨"b", "y"⟩]
      ((createOrUpdateFiles true [⟨"b", "y"⟩] []).written)).wrote = [] :=
  claim_C1 true [⟨"a", "x"⟩] [("a", "x")] (by decide) [⟨"b", "y"⟩] [] (by decide)

/-- C1 counterexample: with a duplicate path carrying two different
contents, the repeat of an identical request writes to the sandbox again
(both calls perform real writes), refuting "repeating an identical
request performs at most one real sandbox write" as universally stated. -/
theorem claim_C1_counterexample :
    (createOrUpdateFiles true [⟨"a", "x"⟩, ⟨"a", "y"⟩] []).wrote ≠ [] ∧
    (createOrUpdateFiles true [⟨"a", "x"⟩, ⟨"a", "y"⟩]
      ((createOrUpdateFiles true [⟨"a", "x"⟩, ⟨"a", "y"⟩] []).written)).wrote ≠ [] := by
  decide

/-- C10: calling `createOrUpdateFiles` with an empty `files` array hits
the all-duplicates branch: the "already exist with identical content"
completion message is returned, no sandbox write happens, `writtenFiles`
is untouched, and the tool node sets `mainTaskExecuted` to `true`. -/
theorem claim_C10 (mainTaskBefore writeOk : Bool) (wf : WrittenFiles) :
    (callToolsCreateOrUpdate mainTaskBefore writeOk [] wf).sandboxWrites = [] ∧
    (callToolsCreateOrUpdate mainTaskBefore writeOk [] wf).mainTaskExecuted = true ∧
    (callToolsCreateOrUpdate mainTaskBefore writeOk [] wf).written = wf ∧
    strContains (callToolsCreateOrUpdate mainTaskBefore writeOk [] wf).toolMessageContent
      "All requested files already exist with identical content" = true := by
  have h1 : createOrUpdateFiles writeOk [] wf = ⟨msgAllIdentical, false, [], wf⟩ := by
    simp [createOrUpdateFiles]
  have hc : isCompletionSignalStr msgAllIdentical = true := by decide
  have h2 : invokeCreateOrUpdateFiles writeOk [] wf =
      ⟨msgAllIdentical ++ completionMarker, wf, []⟩ := by
    simp [invokeCreateOrUpdateFiles, h1, hc]
  have htc : callToolsIsTaskComplete (msgAllIdentical ++ completionMarker) = true := by
    decide
  have hcontains : strContains (msgAllIdentical ++ completionMarker)
      "All requested files already exist with identical content" = true := by
    decide
  simp [callToolsCreateOrUpdate, h2, htc, hcontains]

/-- C6: with at least two canonical system messages in the log, the
collapse pass keeps exactly one system message, at position 0, and
preserves the relative order of all non-system messages. -/
theorem claim_C6 (msgs : List Msg)
    (h : 2 ≤ (msgs.filter
      (fun m => m.isSystem && strContains m.content canonicalSig)).length) :
    ((cleanupSystemMessages msgs).filter (fun m => m.isSystem)).length = 1 ∧
    ((cleanupSystemMessages msgs).head?.map Msg.isSystem) = some true ∧
    (cleanupSystemMessages msgs).filter (fun m => !m.isSystem) =
      msgs.filter (fun m => !m.isSystem) := by
  have hpos : 0 < (msgs.filter
      (fun m => m.isSystem && strContains m.content canonicalSig)).length := by
    omega
  obtain ⟨x, hx⟩ := List.exists_mem_of_length_pos hpos
  have hex : ∃ y ∈ msgs, (fun m => m.isSystem && strContains m.content canonicalSig) y :=
    ⟨x, (List.mem_filter.mp hx).1, (List.mem_filter.mp hx).2⟩
  obtain ⟨s, hfind⟩ := Option.isSome_iff_exists.mp (List.find?_isSome.mpr hex)
  have hps := List.find?_some hfind
  have hsys : s.isSystem = true := by
    have h2 := hps
    simp only [Bool.and_eq_true] at h2
    exact h2.1
  have hinner : (msgs.filter (fun m => !m.isSystem)).filter
      (fun m => m.isSystem) = [] := by
    apply List.filter_eq_nil.mpr
    intro a ha
    have := (List.mem_filter.mp ha).2
    simp only [Bool.not_eq_true'] at this
    simp [this]
  have hidem : (msgs.filter (fun m => !m.isSystem)).filter
      (fun m => !m.isSystem) = msgs.filter (fun m => !m.isSystem) := by
    apply List.filter_eq_self.mpr
    intro a ha
    exact (List.mem_filter.mp ha).2
  unfold cleanupSystemMessages
  rw [hfind]
  refine ⟨?_, ?_, ?_⟩
  · simp [List.filter_cons, hsys, hinner]
  · simp [hsys]
  · simp only [List.filter_cons, hsys, Bool.not_true]
    simp [hidem]

/-- Witness for C6 at a concrete interleaved log. -/
theorem claim_C6_witness :
    (2 ≤ ([Msg.human "hi", Msg.system "You are a senior software engineer v1",
        Msg.human "x", Msg.system "You are a senior software engineer v2"].filter
      (fun m => m.isSystem && strContains m.content canonicalSig)).length) ∧
    (((cleanupSystemMessages [Msg.human "hi",
        Msg.system "You are a senior software engineer v1", Msg.human "x",
        Msg.system "You are a senior software engineer v2"]).filter
          (fun m => m.isSystem)).length = 1 ∧
      ((cleanupSystemMessages [Msg.human "hi",
        Msg.system "You are a senior software engineer v1", Msg.human "x",
        Msg.system "You are a senior software engineer v2"]).head?.map Msg.isSystem) =
          some true ∧
      (cleanupSystemMessages [Msg.human "hi",
        Msg.system "You are a senior software engineer v1", Msg.human "x",
        Msg.system "You are a senior software engineer v2"]).filter
          (fun m => !m.isSystem) =
        [Msg.human "hi", Msg.system "You are a senior software engineer v1",
          Msg.human "x", Msg.system "You are a senior software engineer v2"].filter
          (fun m => !m.isSystem)) :=
  ⟨by decide, claim_C6 _ (by decide)⟩

/-- C7: for a command matching the npm-install pattern (and a successful
command run), the tool performs the follow-up read of `package.json` and
reports success exactly when the quoted package name occurs in the
manifest, and reports it missing otherwise. -/
theorem claim_C7 (command pkgJson pkg : String)
    (h : matchNpmInstall command = some pkg) :
    runInTerminal command true pkgJson =
      ⟨if strContains pkgJson ("\"" ++ pkg ++ "\"") then msgInstallVerified pkg
        else msgInstallMissing pkg, true⟩ := by
  unfold runInTerminal
  rw [h]
  by_cases hc : strContains pkgJson ("\"" ++ pkg ++ "\"") <;> simp [hc]

/-- Witness for C7 at a concrete npm-install command. -/
theorem claim_C7_witness :
    matchNpmInstall "npm install lodash" = some "lodash" ∧
    runInTerminal "npm install lodash" true "\x7b\"lodash\":\"x\"\x7d" =
      ⟨msgInstallVerified "lodash", true⟩ := by
  refine ⟨by decide, ?_⟩
  rw [claim_C7 "npm install lodash" "\x7b\"lodash\":\"x\"\x7d" "lodash" (by decide)]
  rw [if_pos (by decide)]

/-- C9 (amended): on a resumed thread the entry point resets
`mainTaskExecuted` and `hasWriteErrors` to `false` unconditionally for
every fresh user message — no keyword heuristic is consulted. -/
theorem claim_C9 (existing : AgentState) (q : String) :
    (mergeResumedState existing q).mainTaskExecuted = false ∧
    (mergeResumedState existing q).hasWriteErrors = false ∧
    (mergeResumedState existing q).messages =
      (masterMessageFilter existing.messages inngestFilterOpts).messages ++
        [Msg.human q] :=
  ⟨rfl, rfl, rfl⟩

/-- C9 counterexample: the continuation phrase "continue" also resets the
flags, contradicting "not reset for continuation phrases". -/
theorem claim_C9_counterexample :
    (AgentState.mk [Msg.human "make a landing page"] [("app/page.tsx", "x")]
      true true).mainTaskExecuted = true ∧
    (mergeResumedState
      ⟨[Msg.human "make a landing page"], [("app/page.tsx", "x")], true, true⟩
      "continue").mainTaskExecuted = false ∧
    (mergeResumedState
      ⟨[Msg.human "make a landing page"], [("app/page.tsx", "x")], true, true⟩
      "status").hasWriteErrors = false :=
  ⟨rfl, rfl, rfl⟩

/-! ## Loop-detector lemmas (claim C5) -/

theorem getLast?_replicate_of_pos (k : Nat) (x : α) (hk : 1 ≤ k) :
    (List.replicate k x).getLast? = some x := by
  induction k with
  | zero => omega
  | succ n ih =>
    cases n with
    | zero => rfl
    | succ m =>
      rw [List.replicate_succ, List.replicate_succ, List.getLast?_cons_cons,
        ← List.replicate_succ]
      exact ih (by omega)

theorem checkMessageLoop_hasLoop_iff (w : List String) (t : Nat) (ht : 1 ≤ t) :
    (checkMessageLoop w t).hasLoop = true ↔
      (t ≤ w.length ∧ ∃ v, w.getLast? = some v ∧ t ≤ w.count v) := by
  unfold checkMessageLoop
  by_cases hlen : w.length < t
  · rw [if_pos hlen]
    constructor
    · intro h
      exact absurd h (by simp)
    · rintro ⟨h1, -⟩
      omega
  · rw [if_neg hlen]
    split
    · next heq =>
      have hw : w = [] := by
        rwa [List.getLast?_eq_none_iff] at heq
      subst hw
      simp only [List.length_nil] at hlen
      exact absurd ht (by omega)
    · next last heq =>
      simp only
      by_cases hc : t ≤ w.count last
      · rw [if_pos hc]
        exact ⟨fun _ => ⟨by omega, last, heq, hc⟩, fun _ => rfl⟩
      · rw [if_neg hc]
        constructor
        · intro h
          exact absurd h (by simp)
        · rintro ⟨h1, u, hu, hcnt⟩
          rw [heq] at hu
          cases hu
          exact absurd hcnt hc

theorem detectRepetitiveLoop_hasLoop (msgs : List Msg) (t : Nat) :
    (detectRepetitiveLoop msgs t).hasLoop =
      ((checkMessageLoop (humanWindow msgs) t).hasLoop ||
       (checkMessageLoop (toolWindow msgs) (t + 1)).hasLoop ||
       (checkMessageLoop (aiWindow msgs) t).hasLoop) := by
  unfold detectRepetitiveLoop
  by_cases h1 : (checkMessageLoop (humanWindow msgs) t).hasLoop <;>
    by_cases h2 : (checkMessageLoop (toolWindow msgs) (t + 1)).hasLoop <;>
      by_cases h3 : (checkMessageLoop (aiWindow msgs) t).hasLoop <;>
        simp [h1, h2, h3]

theorem detect_five_identical (c : String) (n : Nat) (hn : 5 ≤ n) :
    (detectRepetitiveLoop (List.replicate n (Msg.human c)) 3).hasLoop = true := by
  have hfilter : (List.replicate n (Msg.human c)).filter (fun m => m.isHuman) =
      List.replicate n (Msg.human c) :=
    List.filter_eq_self.mpr (fun a ha => by rw [List.eq_of_mem_replicate ha]; rfl)
  have hwin : humanWindow (List.replicate n (Msg.human c)) =
      List.replicate (n - (n - 6)) (hashContent c) := by
    unfold humanWindow takeLast
    rw [hfilter, List.length_replicate, List.drop_replicate, List.map_replicate]
    rfl
  have hcheck : (checkMessageLoop
      (List.replicate (n - (n - 6)) (hashContent c)) 3).hasLoop = true := by
    have hcnt : (List.replicate (n - (n - 6)) (hashContent c)).count (hashContent c)
        = n - (n - 6) := by
      simp
    refine (checkMessageLoop_hasLoop_iff _ 3 (by omega)).mpr
      ⟨by rw [List.length_replicate]; omega, hashContent c,
        getLast?_replicate_of_pos _ _ (by omega), by rw [hcnt]; omega⟩
  rw [detectRepetitiveLoop_hasLoop, hwin, hcheck]
  simp

/-- C5 (amended): `detectRepetitiveLoop` reports a loop exactly when one
class window's most recent value occurs at least the class threshold
times within the window (`threshold` for user and assistant groups,
`threshold + 1` for tool results) — *not necessarily consecutively*; and
a conversation of 5 or more identical consecutive user messages with no
tool activity is detected in one pass. -/
theorem claim_C5 (msgs : List Msg) (t : Nat) (c : String) (n : Nat)
    (ht : 1 ≤ t) (hn : 5 ≤ n) :
    ((detectRepetitiveLoop msgs t).hasLoop = true ↔
      ((t ≤ (humanWindow msgs).length ∧
        ∃ v, (humanWindow msgs).getLast? = some v ∧ t ≤ (humanWindow msgs).count v) ∨
       (t + 1 ≤ (toolWindow msgs).length ∧
        ∃ v, (toolWindow msgs).getLast? = some v ∧
          t + 1 ≤ (toolWindow msgs).count v) ∨
       (t ≤ (aiWindow msgs).length ∧
        ∃ v, (aiWindow msgs).getLast? = some v ∧ t ≤ (aiWindow msgs).count v))) ∧
    (detectRepetitiveLoop (List.replicate n (Msg.human c)) 3).hasLoop = true := by
  constructor
  · rw [detectRepetitiveLoop_hasLoop, Bool.or_eq_true, Bool.or_eq_true,
      checkMessageLoop_hasLoop_iff _ t ht,
      checkMessageLoop_hasLoop_iff _ (t + 1) (by omega),
      checkMessageLoop_hasLoop_iff _ t ht]
    exact or_assoc
  · exact detect_five_identical c n hn

/-- Witness for C5: five identical user submissions are detected. -/
theorem claim_C5_witness :
    (detectRepetitiveLoop (List.replicate 5 (Msg.human "q")) 3).hasLoop = true :=
  (claim_C5 [Msg.human "x"] 1 "q" 5 (by decide) (by decide)).2

/-- C5 counterexample: an alternating `a b a b a` user history is
reported as a loop (the most recent value occurs 3 times in the window)
although no value repeats 3 times consecutively, refuting the claim's
"repeats at least threshold times consecutively" characterization. -/
theorem claim_C5_counterexample :
    (detectRepetitiveLoop [Msg.human "a", Msg.human "b", Msg.human "a",
      Msg.human "b", Msg.human "a"] 3).hasLoop = true ∧
    specConsecutiveDetected [Msg.human "a", Msg.human "b", Msg.human "a",
      Msg.human "b", Msg.human "a"] 3 = false := by
  decide

/-! ## Advanced-pass preservation lemmas (claim C3) -/

set_option maxHeartbeats 2000000 in
theorem advStep_filtered_mono (opts : AdvOptions) (i : Nat) (m : Msg)
    (st : AdvState) (x : Msg) (hx : x ∈ st.filtered) :
    x ∈ (advStep opts i m st).filtered := by
  unfold advStep advGeneric
  dsimp only
  repeat' split
  all_goals first
    | exact hx
    | exact List.mem_append_left _ hx

theorem advLoop_filtered_mono (opts : AdvOptions) (l : List Msg) :
    ∀ (i : Nat) (st : AdvState) (x : Msg), x ∈ st.filtered →
      x ∈ (advLoop opts i l st).filtered := by
  induction l with
  | nil => intro i st x hx; exact hx
  | cons m rest ih =>
    intro i st x hx
    exact ih (i + 1) _ x (advStep_filtered_mono opts i m st x hx)

theorem advStep_keeps_completion (opts : AdvOptions)
    (hopts : opts.preserveToolMessages = false) (i : Nat) (m : Msg)
    (st : AdvState) (htool : m.isTool = true)
    (hcomp : m.analyze.isCompletion = true) :
    m ∈ (advStep opts i m st).filtered := by
  have hsys : m.isSystem = false := by
    cases m <;> simp_all [Msg.isTool, Msg.isSystem]
  unfold advStep
  simp only [hsys, hopts, htool, hcomp, Bool.and_false, Bool.and_true,
    Bool.not_false, Bool.not_true, Bool.true_and, Bool.false_eq_true, if_false,
    if_true, ite_false, ite_true]
  simp [List.mem_append]

theorem advLoop_keeps_completions (opts : AdvOptions)
    (hopts : opts.preserveToolMessages = false) (l : List Msg) :
    ∀ (i : Nat) (st : AdvState) (m : Msg), m ∈ l → m.isTool = true →
      m.analyze.isCompletion = true → m ∈ (advLoop opts i l st).filtered := by
  induction l with
  | nil => intro i st m hm _ _; exact absurd hm (List.not_mem_nil m)
  | cons a rest ih =>
    intro i st m hm htool hcomp
    rcases List.mem_cons.mp hm with he | ht
    · subst he
      exact advLoop_filtered_mono opts rest (i + 1) _ m
        (advStep_keeps_completion opts hopts i m st htool hcomp)
    · exact ih (i + 1) _ m ht htool hcomp

/-- C3 (amended): the repetitive-message pass's own loop never drops a
completion-signal tool result — every completion-signal tool message in
the input is present in the output when the aggressive tool-dedup
prepass is disabled (the prepass, by design, merges completion signals
within a five-entry window; see the counterexample). -/
theorem claim_C3 (msgs : List Msg) (opts : AdvOptions) (m : Msg)
    (h1 : opts.aggressiveToolFiltering = false)
    (h2 : opts.preserveToolMessages = false)
    (hm : m ∈ msgs) (htool : m.isTool = true)
    (hcomp : m.analyze.isCompletion = true) :
    m ∈ filterRepetitiveMessagesAdvanced msgs opts := by
  have hne : ¬ msgs.length = 0 := by
    intro hc
    rw [List.length_eq_zero] at hc
    subst hc
    exact absurd hm (List.not_mem_nil m)
  unfold filterRepetitiveMessagesAdvanced
  rw [if_neg hne, h1]
  simp only [Bool.false_eq_true, if_false, ite_false]
  exact advLoop_keeps_completions opts h2 msgs 0 advInit m hm htool hcomp

/-- Witness for C3 at a concrete completion-signal tool result. -/
theorem claim_C3_witness :
    (Msg.tool "Task completed" "createOrUpdateFiles" "a") ∈
      filterRepetitiveMessagesAdvanced
        [Msg.tool "Task completed" "createOrUpdateFiles" "a"]
        { aggressiveToolFiltering := false } :=
  claim_C3 _ _ _ rfl rfl (by decide) (by decide) (by decide)

/-- C3 counterexample: with the aggressive tool-dedup prepass enabled
(the default, and what the controller uses), the second of two distinct
completion-signal tool results is dropped, refuting "completion-signal
tool results are never dropped by filtering". -/
theorem claim_C3_counterexample :
    (Msg.tool "Task completed beta" "createOrUpdateFiles" "b").isTool = true ∧
    (Msg.tool "Task completed beta" "createOrUpdateFiles" "b").analyze.isCompletion
      = true ∧
    (Msg.tool "Task completed beta" "createOrUpdateFiles" "b") ∈
      [Msg.tool "Task completed alpha" "createOrUpdateFiles" "a",
       Msg.tool "Task completed beta" "createOrUpdateFiles" "b"] ∧
    (Msg.tool "Task completed beta" "createOrUpdateFiles" "b") ∉
      filterRepetitiveMessagesAdvanced
        [Msg.tool "Task completed alpha" "createOrUpdateFiles" "a",
         Msg.tool "Task completed beta" "createOrUpdateFiles" "b"] {} := by
  decide

/-! ## Filter-pipeline subset lemmas (the filters only select from their
input) -/

theorem takeLast_sub (n : Nat) (l : List α) (x : α) (hx : x ∈ takeLast n l) :
    x ∈ l := by
  unfold takeLast at hx
  exact List.Sublist.mem hx (List.drop_sublist _ _)

theorem filterToolMessagesStep_filtered_sub (i : Nat) (m : Msg) (st : FTState)
    (x : Msg) (hx : x ∈ (filterToolMessagesStep i m st).filtered) :
    x ∈ st.filtered ∨ x = m := by
  unfold filterToolMessagesStep at hx
  cases m with
  | system c => exact (List.mem_append.mp hx).imp id List.mem_singleton.mp
  | human c => exact (List.mem_append.mp hx).imp id List.mem_singleton.mp
  | ai c tcs => exact (List.mem_append.mp hx).imp id List.mem_singleton.mp
  | tool c nm tid =>
    dsimp only at hx
    repeat' split at hx
    all_goals first
      | exact Or.inl hx
      | exact (List.mem_append.mp hx).imp id List.mem_singleton.mp

theorem filterToolMessagesLoop_sub (l : List Msg) :
    ∀ (i : Nat) (st : FTState) (x : Msg),
      x ∈ (filterToolMessagesLoop i l st).filtered → x ∈ st.filtered ∨ x ∈ l := by
  induction l with
  | nil => intro i st x hx; exact Or.inl hx
  | cons m rest ih =>
    intro i st x hx
    rcases ih (i + 1) _ x hx with h | h
    · rcases filterToolMessagesStep_filtered_sub i m st x h with h2 | h2
      · exact Or.inl h2
      · exact Or.inr (h2 ▸ List.mem_cons_self m rest)
    · exact Or.inr (List.mem_cons_of_mem m h)

theorem filterToolMessages_sub (msgs : List Msg) (x : Msg)
    (hx : x ∈ filterToolMessages msgs) : x ∈ msgs := by
  unfold filterToolMessages at hx
  rcases filterToolMessagesLoop_sub msgs 0 ⟨[], [], []⟩ x hx with h | h
  · exact absurd h (List.not_mem_nil x)
  · exact h

theorem advStep_filtered_sub (opts : AdvOptions) (i : Nat) (m : Msg)
    (st : AdvState) (x : Msg) (hx : x ∈ (advStep opts i m st).filtered) :
    x ∈ st.filtered ∨ x = m := by
  unfold advStep advGeneric at hx
  dsimp only at hx
  repeat' split at hx
  all_goals first
    | exact Or.inl hx
    | exact (List.mem_append.mp hx).imp id List.mem_singleton.mp

theorem advLoop_sub (opts : AdvOptions) (l : List Msg) :
    ∀ (i : Nat) (st : AdvState) (x : Msg),
      x ∈ (advLoop opts i l st).filtered → x ∈ st.filtered ∨ x ∈ l := by
  induction l with
  | nil => intro i st x hx; exact Or.inl hx
  | cons m rest ih =>
    intro i st x hx
    rcases ih (i + 1) _ x hx with h | h
    · rcases advStep_filtered_sub opts i m st x h with h2 | h2
      · exact Or.inl h2
      · exact Or.inr (h2 ▸ List.mem_cons_self m rest)
    · exact Or.inr (List.mem_cons_of_mem m h)

theorem filterRepetitiveMessagesAdvanced_sub (msgs : List Msg)
    (opts : AdvOptions) (x : Msg)
    (hx : x ∈ filterRepetitiveMessagesAdvanced msgs opts) : x ∈ msgs := by
  unfold filterRepetitiveMessagesAdvanced at hx
  by_cases h0 : msgs.length = 0
  · rw [if_pos h0] at hx; exact hx
  · rw [if_neg h0] at hx
    dsimp only at hx
    rcases advLoop_sub opts _ 0 advInit x hx with h | h
    · exact absurd h (List.not_mem_nil x)
    · split at h
      · exact filterToolMessages_sub msgs x h
      · exact h

theorem compressMessageHistory_sub (msgs : List Msg) (maxLength : Nat) (x : Msg)
    (hx : x ∈ compressMessageHistory msgs maxLength) : x ∈ msgs := by
  unfold compressMessageHistory at hx
  by_cases h0 : msgs.length ≤ maxLength
  · rw [if_pos h0] at hx; exact hx
  · rw [if_neg h0] at hx
    dsimp only at hx
    have hc := filterRepetitiveMessagesAdvanced_sub _ _ x hx
    rcases List.mem_append.mp hc with hc1 | hrec
    · rcases List.mem_append.mp hc1 with hc2 | hai
      · rcases List.mem_append.mp hc2 with hsysm | hmil
        · split at hsysm
          · next s hfind =>
            have := List.mem_singleton.mp hsysm
            exact this ▸ List.mem_of_find?_eq_some hfind
          · exact absurd hsysm (List.not_mem_nil x)
        · exact (List.mem_filter.mp (takeLast_sub _ _ x hmil)).1
      · exact (List.mem_filter.mp (takeLast_sub _ _ x hai)).1
    · exact takeLast_sub _ _ x (List.mem_filter.mp hrec).1

theorem cleanupSystemMessages_sub (msgs : List Msg) (x : Msg)
    (hx : x ∈ cleanupSystemMessages msgs) : x ∈ msgs := by
  unfold cleanupSystemMessages at hx
  split at hx
  · next s hfind =>
    rcases List.mem_cons.mp hx with he | hm
    · exact he ▸ List.mem_of_find?_eq_some hfind
    · exact (List.mem_filter.mp hm).1
  · exact (List.mem_filter.mp hx).1

theorem masterMessageFilter_sub (msgs : List Msg) (opts : MasterOptions) (x : Msg)
    (hx : x ∈ (masterMessageFilter msgs opts).messages) : x ∈ msgs := by
  unfold masterMessageFilter at hx
  dsimp only at hx
  have h2 := cleanupSystemMessages_sub _ x hx
  split at h2
  · exact filterRepetitiveMessagesAdvanced_sub _ _ x
      (compressMessageHistory_sub _ _ x h2)
  · exact filterRepetitiveMessagesAdvanced_sub _ _ x h2

/-! ## Controller branch lemmas (claims C2, C4) -/

theorem masterMessageFilter_shouldTerminate_false (msgs : List Msg) :
    (masterMessageFilter msgs callLlmFilterOpts).shouldTerminate = false := rfl

/-- C2 (amended): the controller calls the compactor with
`autoTerminateLoops: false`, so the reported `shouldTerminate` is always
`false` and the loop-triggered force-stop branch can never fire — even
when the detector's terminal verdict holds and completion signals are
present the controller does not stop through the loop path; and when no
completion signal exists anywhere in the log (and the main-task flag is
clear) the controller takes the normal agent turn. -/
theorem claim_C2 (state : AgentState) (resp : AIResponse)
    (hmt : state.mainTaskExecuted = false)
    (hsig : ∀ m ∈ state.messages, specCompletionSignal m.content = false) :
    (∀ s : AgentState,
      (masterMessageFilter s.messages callLlmFilterOpts).shouldTerminate = false) ∧
    (∀ (s : AgentState) (r : AIResponse),
      (callLlmOutcome s r).branch ≠ LlmBranch.loopForced) ∧
    (callLlmOutcome state resp).branch = LlmBranch.normal ∧
    (callLlmOutcome state resp).plainLlmCalls = 0 := by
  have hterm : ∀ s : AgentState,
      (masterMessageFilter s.messages callLlmFilterOpts).shouldTerminate = false :=
    fun s => rfl
  have hbranch : ∀ (s : AgentState) (r : AIResponse),
      (callLlmOutcome s r).branch ≠ LlmBranch.loopForced := by
    intro s r
    unfold callLlmOutcome
    dsimp only
    rw [hterm s]
    simp only [Bool.and_false, Bool.false_and, Bool.false_eq_true, if_false,
      ite_false]
    split
    · simp
    · split
      · simp
      · simp
  have hns : hasCompletionSignalsRecent
      (takeLast 5 (masterMessageFilter state.messages callLlmFilterOpts).messages)
      = false := by
    apply List.any_eq_false.mpr
    intro m hm
    have hmm : m ∈ state.messages :=
      masterMessageFilter_sub _ _ m (takeLast_sub _ _ m hm)
    have hs := hsig m hmm
    unfold specCompletionSignal at hs
    simp only [Bool.or_eq_false_iff] at hs
    obtain ⟨⟨⟨⟨h1, h2⟩, h3⟩, h4⟩, h5⟩ := hs
    simp [h2, h3, h4, h5]
  have hrest : callLlmOutcome state resp =
      ⟨.normal, 0, 1,
        if strContains resp.content "<task_summary>" then NextTag.endRun
        else if !resp.toolCalls.isEmpty then NextTag.tools else NextTag.endRun,
        state.mainTaskExecuted⟩ := by
    unfold callLlmOutcome
    dsimp only
    rw [hterm state, hmt, hns]
    simp
  exact ⟨hterm, hbranch, by rw [hrest], by rw [hrest]⟩

/-- Witness for C2 at a concrete signal-free state. -/
theorem claim_C2_witness :
    (callLlmOutcome ⟨[Msg.human "hi"], [], false, false⟩ ⟨"", []⟩).branch =
      LlmBranch.normal :=
  (claim_C2 ⟨[Msg.human "hi"], [], false, false⟩ ⟨"", []⟩ rfl (by decide)).2.2.1

/-- C2 counterexample: a state whose history carries a terminal
repetition loop (the detector's own verdict) *and* a completion-signal
tool result, yet the controller takes the normal branch and forces no
completion call, refuting "the controller forces one completion-forcing
model call and stops". -/
theorem claim_C2_counterexample :
    (detectRepetitiveLoop
      ([Msg.tool "⚠️ All requested files already exist with identical content. Task is complete." "createOrUpdateFiles" "tc1"] ++
        List.replicate 5 (Msg.human "again")) 3).shouldTerminate = true ∧
    specCompletionSignal
      "⚠️ All requested files already exist with identical content. Task is complete."
      = true ∧
    (callLlmOutcome
      ⟨[Msg.tool "⚠️ All requested files already exist with identical content. Task is complete." "createOrUpdateFiles" "tc1"] ++
        List.replicate 5 (Msg.human "again"), [], false, false⟩
      ⟨"", []⟩).branch = LlmBranch.normal ∧
    (callLlmOutcome
      ⟨[Msg.tool "⚠️ All requested files already exist with identical content. Task is complete." "createOrUpdateFiles" "tc1"] ++
        List.replicate 5 (Msg.human "again"), [], false, false⟩
      ⟨"", []⟩).plainLlmCalls = 0 := by
  refine ⟨by decide, by decide, ?_, ?_⟩ <;> decide

/-- C4 (amended): whenever `mainTaskExecuted` is true at the start of
the LLM node, the controller makes exactly one plain (completion-forcing,
tools not bound) model call and ends, regardless of the response content
and regardless of `hasWriteErrors`. -/
theorem claim_C4 (state : AgentState) (resp : AIResponse)
    (h : state.mainTaskExecuted = true) :
    (callLlmOutcome state resp).plainLlmCalls = 1 ∧
    (callLlmOutcome state resp).toolLlmCalls = 0 ∧
    (callLlmOutcome state resp).next = NextTag.endRun := by
  unfold callLlmOutcome
  dsimp only
  repeat' split
  all_goals first
    | exact ⟨rfl, rfl, rfl⟩
    | exact absurd h (by assumption)

/-- Witness for C4 at a concrete completed state. -/
theorem claim_C4_witness :
    (callLlmOutcome ⟨[], [], true, false⟩ ⟨"", []⟩).plainLlmCalls = 1 ∧
    (callLlmOutcome ⟨[], [], true, false⟩ ⟨"", []⟩).toolLlmCalls = 0 ∧
    (callLlmOutcome ⟨[], [], true, false⟩ ⟨"", []⟩).next = NextTag.endRun :=
  claim_C4 ⟨[], [], true, false⟩ ⟨"", []⟩ rfl

/-- C4 counterexample: the forcing is *not* conditioned on the absence of
pending write errors — with `hasWriteErrors = true` the completion-forcing
call still happens and the run still ends. -/
theorem claim_C4_counterexample :
    (AgentState.mk [] [] true true).hasWriteErrors = true ∧
    (callLlmOutcome ⟨[], [], true, true⟩ ⟨"", []⟩).plainLlmCalls = 1 ∧
    (callLlmOutcome ⟨[], [], true, true⟩ ⟨"", []⟩).branch =
      LlmBranch.summaryForced ∧
    (callLlmOutcome ⟨[], [], true, true⟩ ⟨"", []⟩).next = NextTag.endRun := by
  refine ⟨rfl, ?_, ?_, ?_⟩ <;> decide

/-! ## Dispatcher repair (claim C8) -/

theorem traverseOption_fileEntries (entries : List (String × String)) :
    traverseOption asFileEntryJson (entries.map
      (fun e => Json.obj [("path", Json.str e.1), ("content", Json.str e.2)])) =
    some (entries.map
      (fun e => Json.obj [("path", Json.str e.1), ("content", Json.str e.2)])) := by
  induction entries with
  | nil => rfl
  | cons e t ih =>
    simp only [List.map_cons, traverseOption, ih]
    rfl

/-- C8: argument repair precedes validation — a `readFiles` call given
`paths` (or a single `path`) executes as if given `files` and succeeds; a
JSON-stringified `files` array for `createOrUpdateFiles` is parsed back
into a structured array; and when the repair itself fails (the string is
not valid JSON) the dispatcher returns a descriptive failure tool-result
instead of throwing. -/
theorem claim_C8 (parseJson : String → Option Json) (paths : List String)
    (p : String) (hp : p ≠ "")
    (s : String) (entries : List (String × String))
    (hparse : parseJson s = some (Json.arr (entries.map
      (fun e => Json.obj [("path", Json.str e.1), ("content", Json.str e.2)]))))
    (s2 : String) (hbad : parseJson s2 = none) :
    invokeDispatch parseJson "readFiles"
        (Json.obj [("paths", Json.arr (paths.map Json.str))]) =
      .executed (Json.obj [("files", Json.arr (paths.map Json.str))]) ∧
    invokeDispatch parseJson "readFiles" (Json.obj [("path", Json.str p)]) =
      .executed (Json.obj [("files", Json.arr [Json.str p])]) ∧
    invokeDispatch parseJson "createOrUpdateFiles"
        (Json.obj [("files", Json.str s)]) =
      .executed (Json.obj [("files", Json.arr (entries.map
        (fun e => Json.obj [("path", Json.str e.1), ("content", Json.str e.2)])))]) ∧
    invokeDispatch parseJson "createOrUpdateFiles"
        (Json.obj [("files", Json.str s2)]) =
      .toolFailure
        ("❌ Tool createOrUpdateFiles failed: files parameter is a malformed JSON string: "
          ++ s2) := by
  refine ⟨?_, ?_, ?_, ?_⟩
  · have hall : (paths.map Json.str).all isStrJson = true :=
      List.all_eq_true.mpr (fun x hx => by
        obtain ⟨y, -, hy⟩ := List.mem_map.mp hx
        rw [← hy]
        rfl)
    simp [invokeDispatch, fixCommonParameterIssues, zodValidate, Json.getField,
      lookupAssoc, truthy, isStrJson, hall]
  · have hpe : p.isEmpty = false := by
      rw [Bool.eq_false_iff]
      intro hc
      exact hp ((String.isEmpty_iff p).mp hc)
    simp [invokeDispatch, fixCommonParameterIssues, zodValidate, Json.getField,
      lookupAssoc, truthy, isStrJson, hpe]
  · simp [invokeDispatch, fixCommonParameterIssues, zodValidate, Json.getField,
      lookupAssoc, truthy, isStrJson, hparse, traverseOption_fileEntries]
  · simp [invokeDispatch, fixCommonParameterIssues, zodValidate,
      Json.getField, lookupAssoc, truthy, isStrJson, hbad]
    rfl

/-- Witness for C8 at concrete arguments and a concrete parser. -/
theorem claim_C8_witness :
    invokeDispatch (fun s => if s = "[]" then some (Json.arr []) else none)
        "readFiles" (Json.obj [("paths", Json.arr [Json.str "a.ts"])]) =
      .executed (Json.obj [("files", Json.arr [Json.str "a.ts"])]) ∧
    invokeDispatch (fun s => if s = "[]" then some (Json.arr []) else none)
        "readFiles" (Json.obj [("path", Json.str "b.ts")]) =
      .executed (Json.obj [("files", Json.arr [Json.str "b.ts"])]) ∧
    invokeDispatch (fun s => if s = "[]" then some (Json.arr []) else none)
        "createOrUpdateFiles" (Json.obj [("files", Json.str "[]")]) =
      .executed (Json.obj [("files", Json.arr [])]) ∧
    invokeDispatch (fun s => if s = "[]" then some (Json.arr []) else none)
        "createOrUpdateFiles" (Json.obj [("files", Json.str "oops")]) =
      .toolFailure
        ("❌ Tool createOrUpdateFiles failed: files parameter is a malformed JSON string: "
          ++ "oops") :=
  claim_C8 (fun s => if s = "[]" then some (Json.arr []) else none)
    ["a.ts"] "b.ts" (by decide) "[]" [] rfl "oops" rfl
